import Mathlib

/-!
Verification development for `streaming_server.py`, a websocket server that
buffers PCM audio per connection, periodically decodes it with a speech
recognizer, and forwards non-empty transcripts to an LLM enrichment task.

The Python source is shallowly embedded below:

* `Json`, `jsonLoads`, `Json.dump` model the Python `json` standard library
  (`json.loads` / `json.dumps` with the default separators and
  `ensure_ascii=False`), restricted to integer numerals: no code path
  relevant to the claims produces or consumes a fractional numeral.
* `b64decode` models `base64.b64decode` (its default forgiving mode).
* `handleStep` / `handleRun` embed the per-message body of the `handle`
  coroutine; the external speech recognizer (`decode_pcm`) is an opaque
  parameter `d : List Nat → String` returning the stripped transcript text.
* `send_transcripts_to_llm_and_print` embeds the enrichment coroutine; the
  external OpenAI SDK call is an opaque environment `LLMEnv` which, on
  success, yields the response text extracted by the duck-typed SDK probing
  (lines 244-291 of the source), since that probing only inspects the opaque
  SDK response object.

Machine reals (`time.time()` timestamps, buffered-duration arithmetic) are
modelled exactly over `ℚ`; byte strings are `List Nat`.
-/

/-- Characters that `json.loads` treats as insignificant whitespace. -/
def jsonWs (c : Char) : Bool :=
  c == ' ' || c.toNat == 9 || c.toNat == 10 || c.toNat == 13

/-- The character `\x7b` (opening curly brace). -/
def lbrace : Char := Char.ofNat 123

/-- The character `\x7d` (closing curly brace). -/
def rbrace : Char := Char.ofNat 125

/-- A Python value decoded from JSON: the image of `json.loads`.
Numerals are restricted to integers (see the module docstring). -/
inductive Json where
  | null
  | bool (b : Bool)
  | num (n : Int)
  | str (s : String)
  | arr (xs : List Json)
  | obj (fields : List (String × Json))

/-- Python `dict.get k` / `k in dict` on a decoded JSON object
(field lists are deduplicated at parse time, mirroring `dict`). -/
def dictGet (fs : List (String × Json)) (k : String) : Option Json :=
  (fs.find? (fun p => p.1 == k)).map (fun p => p.2)

/-- Inserting a key into a Python `dict` under construction: a repeated key
keeps its first position but takes the new value. -/
def pyDictInsert (fs : List (String × Json)) (k : String) (v : Json) :
    List (String × Json) :=
  if (fs.find? (fun p => p.1 == k)).isSome then
    fs.map (fun p => if p.1 == k then (k, v) else p)
  else
    fs ++ [(k, v)]

/-- Builds the Python `dict` for a parsed JSON object from its raw field
list, deduplicating keys the way `json.loads` does. -/
def pyDictOf (raw : List (String × Json)) : List (String × Json) :=
  raw.foldl (fun acc p => pyDictInsert acc p.1 p.2) []

/-- Skips JSON whitespace. -/
def skipWs : List Char → List Char
  | [] => []
  | c :: cs => if jsonWs c then skipWs cs else c :: cs

/-- Value of a hexadecimal digit (digits, then both letter cases, by code
point range). -/
def hexVal (c : Char) : Option Nat :=
  let n := c.toNat
  if 48 ≤ n ∧ n ≤ 57 then some (n - 48)
  else if 97 ≤ n ∧ n ≤ 102 then some (n - 87)
  else if 65 ≤ n ∧ n ≤ 70 then some (n - 55)
  else none

/-- Single-character JSON string escapes. -/
def escChar : Char → Option Char
  | 'n' => some '\n'
  | 't' => some '\t'
  | 'r' => some '\r'
  | 'b' => some (Char.ofNat 8)
  | 'f' => some (Char.ofNat 12)
  | '/' => some '/'
  | '\\' => some '\\'
  | '"' => some '"'
  | _ => none

/-- Parses the body of a JSON string (after the opening quote) up to the
closing quote.  Raw control characters are rejected, as in strict
`json.loads`. -/
def parseStrChars : List Char → Option (List Char × List Char)
  | [] => none
  | c :: cs =>
    if c == '"' then some ([], cs)
    else if c == '\\' then
      match cs with
      | [] => none
      | e :: cs2 =>
        if e == 'u' then
          match cs2 with
          | h1 :: h2 :: h3 :: h4 :: cs3 =>
            match hexVal h1, hexVal h2, hexVal h3, hexVal h4 with
            | some a, some b, some cc, some dd =>
              match parseStrChars cs3 with
              | some (r, rest) =>
                some (Char.ofNat (((a * 16 + b) * 16 + cc) * 16 + dd) :: r, rest)
              | none => none
            | _, _, _, _ => none
          | _ => none
        else
          match escChar e with
          | some d =>
            match parseStrChars cs2 with
            | some (r, rest) => some (d :: r, rest)
            | none => none
          | none => none
    else if c.toNat < 32 then none
    else
      match parseStrChars cs with
      | some (r, rest) => some (c :: r, rest)
      | none => none

/-- Numeric value of a string of decimal digits (code point 48 is `0`). -/
def digitsToNat (ds : List Char) : Nat :=
  ds.foldl (fun a d => 10 * a + (d.toNat - 48)) 0

/-- Parses a JSON integer numeral (optional minus, no leading zeros); a
following `.`, `e` or `E` is rejected (integer-numeral restriction). -/
def parseNum (cs : List Char) : Option (Json × List Char) :=
  let (neg, cs1) :=
    match cs with
    | '-' :: t => (true, t)
    | _ => (false, cs)
  match cs1 with
  | [] => none
  | c :: t =>
    if c == '0' then
      match t with
      | d :: _ =>
        if d.isDigit ∨ d == '.' ∨ d == 'e' ∨ d == 'E' then none
        else some (.num 0, t)
      | [] => some (.num 0, t)
    else if c.isDigit then
      let digits := (c :: t).takeWhile Char.isDigit
      let rest := (c :: t).dropWhile Char.isDigit
      match rest with
      | d :: _ =>
        if d == '.' ∨ d == 'e' ∨ d == 'E' then none
        else
          let n : Nat := digitsToNat digits
          some (.num (if neg then -(n : Int) else (n : Int)), rest)
      | [] =>
        let n : Nat := digitsToNat digits
        some (.num (if neg then -(n : Int) else (n : Int)), rest)
    else none

/-- Checks that `cs` starts with the literal `lit` and returns the rest. -/
def expectLit (lit : List Char) (cs : List Char) : Option (List Char) :=
  match lit, cs with
  | [], rest => some rest
  | l :: ls, c :: rest => if c == l then expectLit ls rest else none
  | _ :: _, [] => none

mutual

/-- Recursive-descent JSON value parser (fuel-indexed; `jsonLoads` supplies
fuel strictly larger than any possible recursion depth). -/
def parseVal : Nat → List Char → Option (Json × List Char)
  | 0, _ => none
  | fuel + 1, cs =>
    match skipWs cs with
    | [] => none
    | c :: rest =>
      if c == '"' then
        match parseStrChars rest with
        | some (sc, rest2) => some (.str (String.mk sc), rest2)
        | none => none
      else if c == lbrace then parseObj fuel rest true []
      else if c == '[' then parseArr fuel rest true []
      else if c == 't' then
        (expectLit ['r', 'u', 'e'] rest).map (fun r => (.bool true, r))
      else if c == 'f' then
        (expectLit ['a', 'l', 's', 'e'] rest).map (fun r => (.bool false, r))
      else if c == 'n' then
        (expectLit ['u', 'l', 'l'] rest).map (fun r => (.null, r))
      else parseNum (c :: rest)

/-- Parses the members of a JSON object after the opening brace.
`first` is true when no member has been consumed yet. -/
def parseObj : Nat → List Char → Bool → List (String × Json) →
    Option (Json × List Char)
  | 0, _, _, _ => none
  | fuel + 1, cs, first, acc =>
    match skipWs cs with
    | [] => none
    | c :: rest =>
      if c == rbrace ∧ first then some (.obj (pyDictOf acc.reverse), rest)
      else
        let body := if first then c :: rest else
          match skipWs cs with
          | c2 :: r2 => if c2 == ',' then skipWs r2 else []
          | [] => []
        match body with
        | [] => none
        | k :: krest =>
          if k == '"' then
            match parseStrChars krest with
            | some (kc, afterKey) =>
              match skipWs afterKey with
              | ':' :: afterColon =>
                match parseVal fuel afterColon with
                | some (v, afterVal) =>
                  match skipWs afterVal with
                  | c3 :: r3 =>
                    if c3 == rbrace then
                      some (.obj (pyDictOf ((String.mk kc, v) :: acc).reverse), r3)
                    else if c3 == ',' then
                      parseObj fuel (c3 :: r3) false ((String.mk kc, v) :: acc)
                    else none
                  | [] => none
                | none => none
              | _ => none
            | none => none
          else none

/-- Parses the items of a JSON array after the opening bracket. -/
def parseArr : Nat → List Char → Bool → List Json → Option (Json × List Char)
  | 0, _, _, _ => none
  | fuel + 1, cs, first, acc =>
    match skipWs cs with
    | [] => none
    | c :: rest =>
      if c == ']' ∧ first then some (.arr acc.reverse, rest)
      else
        let body := if first then c :: rest else
          match skipWs cs with
          | c2 :: r2 => if c2 == ',' then skipWs r2 else []
          | [] => []
        match body with
        | [] => none
        | _ =>
          match parseVal fuel body with
          | some (v, afterVal) =>
            match skipWs afterVal with
            | c3 :: r3 =>
              if c3 == ']' then some (.arr (v :: acc).reverse, r3)
              else if c3 == ',' then parseArr fuel (c3 :: r3) false (v :: acc)
              else none
            | [] => none
          | none => none

end

/-- Model of Python `json.loads`: parses one JSON value and requires only
whitespace to follow.  Returns `none` exactly when `json.loads` raises
`JSONDecodeError` (modulo the integer-numeral restriction). -/
def jsonLoads (s : String) : Option Json :=
  match parseVal (2 * s.length + 4) s.data with
  | some (j, rest) => if (skipWs rest).isEmpty then some j else none
  | none => none

/-- Hexadecimal digit for `\uXXXX` escapes emitted by `json.dumps`. -/
def hexDigit (n : Nat) : String :=
  String.singleton (if n < 10 then Char.ofNat ('0'.toNat + n)
    else Char.ofNat ('a'.toNat + n - 10))

/-- Escaping of one character by `json.dumps` with `ensure_ascii=False`. -/
def dumpChar (c : Char) : String :=
  if c == '"' then "\\\""
  else if c == '\\' then "\\\\"
  else if c == '\n' then "\\n"
  else if c == '\t' then "\\t"
  else if c == '\r' then "\\r"
  else if c.toNat == 8 then "\\b"
  else if c.toNat == 12 then "\\f"
  else if c.toNat < 32 then "\\u00" ++ hexDigit (c.toNat / 16) ++ hexDigit (c.toNat % 16)
  else String.singleton c

/-- A JSON string literal as serialized by `json.dumps`. -/
def dumpStr (s : String) : String :=
  "\"" ++ String.join (s.data.map dumpChar) ++ "\""

mutual

/-- Model of `json.dumps` with the default separators and
`ensure_ascii=False`, as called by the server. -/
def Json.dump : Json → String
  | .null => "null"
  | .bool true => "true"
  | .bool false => "false"
  | .num n => toString n
  | .str s => dumpStr s
  | .arr xs => "[" ++ dumpList xs ++ "]"
  | .obj fs => String.singleton lbrace ++ dumpFields fs ++ String.singleton rbrace

/-- Serializes array items, `", "`-separated. -/
def dumpList : List Json → String
  | [] => ""
  | [x] => Json.dump x
  | x :: y :: xs => Json.dump x ++ ", " ++ dumpList (y :: xs)

/-- Serializes object members, `", "`-separated with `": "` after keys. -/
def dumpFields : List (String × Json) → String
  | [] => ""
  | [(k, v)] => dumpStr k ++ ": " ++ Json.dump v
  | (k, v) :: f :: fs => dumpStr k ++ ": " ++ Json.dump v ++ ", " ++ dumpFields (f :: fs)

end

/-- Python `str()` of a decoded JSON scalar (the values the extraction code
can feed it: `str`, `int`, `bool`, `None`). -/
def pyStr : Json → String
  | .null => "None"
  | .bool true => "True"
  | .bool false => "False"
  | .num n => toString n
  | .str s => s
  | .arr xs => Json.dump (.arr xs)
  | .obj fs => Json.dump (.obj fs)

/-- Value of a base64-alphabet character. -/
def b64val (c : Char) : Option Nat :=
  if 'A' ≤ c ∧ c ≤ 'Z' then some (c.toNat - 'A'.toNat)
  else if 'a' ≤ c ∧ c ≤ 'z' then some (c.toNat - 'a'.toNat + 26)
  else if '0' ≤ c ∧ c ≤ '9' then some (c.toNat - '0'.toNat + 52)
  else if c == '+' then some 62
  else if c == '/' then some 63
  else none

/-- Reassembles bytes from 6-bit groups (final group of 2 or 3 values
contributes 1 or 2 bytes, as fixed by the padding). -/
def b64groups : List Nat → List Nat
  | a :: b :: c :: d :: rest =>
    (a * 4 + b / 16) :: ((b % 16) * 16 + c / 4) :: ((c % 4) * 64 + d) :: b64groups rest
  | [a, b] => [a * 4 + b / 16]
  | [a, b, c] => [a * 4 + b / 16, (b % 16) * 16 + c / 4]
  | _ => []

/-- Model of `base64.b64decode` in its default forgiving mode: characters
outside the alphabet are discarded, then padding must be well formed;
on bad padding `binascii.Error` is raised (`none` here). -/
def b64decode (s : String) : Option (List Nat) :=
  let cs := s.data.filter (fun c => (b64val c).isSome || c == '=')
  let dataChars := cs.takeWhile (fun c => c != '=')
  let padChars := cs.dropWhile (fun c => c != '=')
  if padChars.all (fun c => c == '=') ∧ padChars.length ≤ 2 ∧
      (dataChars.length + padChars.length) % 4 == 0 ∧
      (padChars.length == 0 ∨ dataChars.length % 4 ≥ 2) then
    some (b64groups (dataChars.filterMap b64val))
  else none

/-- Python `str.splitlines` restricted to `\n`, `\r\n` and `\r` breaks (the
only breaks the texts in this system contain). -/
def splitlinesAux : List Char → List Char → List String
  | [], acc => if acc.isEmpty then [] else [String.mk acc.reverse]
  | '\r' :: '\n' :: rest, acc => String.mk acc.reverse :: splitlinesAux rest []
  | '\n' :: rest, acc => String.mk acc.reverse :: splitlinesAux rest []
  | '\r' :: rest, acc => String.mk acc.reverse :: splitlinesAux rest []
  | c :: rest, acc => splitlinesAux rest (c :: acc)

/-- Python `str.splitlines`. -/
def pySplitlines (s : String) : List String := splitlinesAux s.data []

/-- Python `str.split()` with no argument: whitespace-separated words. -/
def pyWords (s : String) : List String :=
  (s.split Char.isWhitespace).filter (fun t => t ≠ "")

/-- Strict comparison of the Python sort key `(len(s), -len(s.split()))`
used by the best-line heuristic. -/
def lineKeyLt (a b : String) : Bool :=
  a.length < b.length ||
    (a.length == b.length && (pyWords a).length > (pyWords b).length)

/-- First element of the stable sort of `lines` by
`(len(s), -len(s.split()))`: the earliest line with the minimal key. -/
def bestLine : List String → Option String
  | [] => none
  | l :: ls => some (ls.foldl (fun best c => if lineKeyLt c best then c else best) l)

/-- Python `str.rfind` for a single character, on an exploded string. -/
def pyRfind (cs : List Char) (c : Char) : Option Nat :=
  match cs.reverse.findIdx? (fun x => x == c) with
  | some i => some (cs.length - 1 - i)
  | none => none

/-- The substring `text[fb:lb+1]` between the first `\x7b` and the last
`\x7d`, when both exist and the latter is strictly to the right
(`fb != -1 and lb != -1 and lb > fb` in the source). -/
def bracketCandidate (s : String) : Option String :=
  match s.data.findIdx? (fun x => x == lbrace), pyRfind s.data rbrace with
  | some fb, some lb =>
    if fb < lb then some (String.mk ((s.data.drop fb).take (lb + 1 - fb))) else none
  | _, _ => none

/-- The code-fence marker looked for by the response cleanup. -/
def fence : String := "```"

/-- The code-fence stripping of the raw response text (source lines
294-297): when the text starts with a fence and another fence follows, the
first fenced part, stripped, replaces the text. -/
def stripFences (t : String) : String :=
  if t.startsWith fence ∧ ((t.drop 3).splitOn fence).length ≥ 2 then
    let parts := t.splitOn fence
    if parts.length ≥ 2 then ((parts[1]?).getD "").trim else t
  else t

/-- Configured audio sample rate (Hz), `SAMPLE_RATE` in the source. -/
def SAMPLE_RATE : ℕ := 16000

/-- Configured sample width (bytes per sample), `SAMPLE_WIDTH`. -/
def SAMPLE_WIDTH : ℕ := 2

/-- Decode-trigger interval in seconds, `DECODE_INTERVAL_SECONDS`. -/
def DECODE_INTERVAL_SECONDS : ℚ := 6

/-- Retained overlap in seconds, `OVERLAP_SECONDS`. -/
def OVERLAP_SECONDS : ℚ := 1

/-- Bytes of PCM per second of audio. -/
def bytesPerSecond : ℕ := SAMPLE_RATE * SAMPLE_WIDTH

/-- Bytes kept after a decode:
`keep = int(OVERLAP_SECONDS * SAMPLE_RATE * SAMPLE_WIDTH)`. -/
def keepBytes : ℕ :=
  (OVERLAP_SECONDS * ((SAMPLE_RATE : ℚ) * (SAMPLE_WIDTH : ℚ))).floor.toNat

/-- Python `b[-k:]` for a positive `k`: the suffix of the last `k`
elements, or all of `b` when it is shorter (`keepBytes` is positive, so the
`k = 0` corner of Python slicing is irrelevant). -/
def pyTailSlice (k : Nat) (l : List Nat) : List Nat := l.drop (l.length - k)

/-- The per-connection mutable state of `handle`: its two locals. -/
structure HandleState where
  buffer : List Nat
  last_decode_time : ℚ
deriving DecidableEq

/-- A message the server sends over the websocket.  `transcription` is the
wire message tagged `"transcription"` with its text field; `contextMsg` is
the wire message tagged `"context_partial"` with the `context` field of its
json payload; `contextErrorMsg` is the wire message tagged
`"context_partial_error"` with its `raw` field.  Timestamps and other
metadata fields are not modelled. -/
inductive OutMsg where
  | transcription (text : String)
  | contextMsg (context : String)
  | contextErrorMsg (raw : String)
deriving DecidableEq

/-- The Python exceptions the per-message body of `handle` can raise. -/
inductive PyError where
  | jsonDecodeError
  | attributeError
  | keyError (k : String)
  | typeError
  | binasciiError
deriving DecidableEq

/-- Classification of one inbound websocket message by the top of the
`handle` loop body (source lines 71-83). -/
inductive MsgAction where
  | ignore
  | crashLog
  | audio (pcm : List Nat)
deriving DecidableEq

/-- The `CRASH_LOG` branch: `data['message']`, `data['source']` and
`data['lineno']` are read in that order, raising `KeyError` on the first
missing one; `data.get('error')` cannot raise. -/
def crashCheck (fs : List (String × Json)) : Except PyError MsgAction :=
  if (dictGet fs "message").isNone then .error (.keyError "message")
  else if (dictGet fs "source").isNone then .error (.keyError "source")
  else if (dictGet fs "lineno").isNone then .error (.keyError "lineno")
  else .ok .crashLog

/-- The audio branch header: `pcm = base64.b64decode(data["data"])`.
A missing field raises `KeyError`, a non-string payload `TypeError`, bad
padding `binascii.Error`. -/
def audioCheck (fs : List (String × Json)) : Except PyError MsgAction :=
  match dictGet fs "data" with
  | none => .error (.keyError "data")
  | some (.str s) =>
    match b64decode s with
    | some pcm => .ok (.audio pcm)
    | none => .error .binasciiError
  | some _ => .error .typeError

/-- Classifies one raw inbound message: `data = json.loads(msg)` followed
by the `type` dispatch.  `data.get` on a non-dict raises `AttributeError`;
an unrecognized or missing `type` falls through both `continue`s. -/
def msgAction (m : String) : Except PyError MsgAction :=
  match jsonLoads m with
  | none => .error .jsonDecodeError
  | some (.obj fs) =>
    match dictGet fs "type" with
    | some (.str t) =>
      if t == "CRASH_LOG" then crashCheck fs
      else if t == "audio" then audioCheck fs
      else .ok .ignore
    | _ => .ok .ignore
  | some _ => .error .attributeError

/-- Everything one iteration of the `handle` loop produces: the new
connection state, the messages sent on the websocket, the transcript handed
to the spawned enrichment task (if any), and the snapshot of the buffer
passed to `decode_pcm` (if the decode trigger fired). -/
structure StepOut where
  state : HandleState
  sent : List OutMsg
  spawned : Option String
  window : Option (List Nat)
deriving DecidableEq

/-- One iteration of the `async for msg in ws` body of `handle` (source
lines 70-105).  `d` is the opaque speech decoder `decode_pcm` (returning
the already-stripped transcript), `now` the value of `time.time()` at line
86.  An uncaught exception (`.error`) terminates the coroutine and with it
the connection. -/
def handleStep (d : List Nat → String) (st : HandleState) (now : ℚ) (m : String) :
    Except PyError StepOut :=
  match msgAction m with
  | .error e => .error e
  | .ok .ignore => .ok ⟨st, [], none, none⟩
  | .ok .crashLog => .ok ⟨st, [], none, none⟩
  | .ok (.audio pcm) =>
    let buffer := st.buffer ++ pcm
    let duration : ℚ := (buffer.length : ℚ) / (bytesPerSecond : ℚ)
    if DECODE_INTERVAL_SECONDS ≤ now - st.last_decode_time ∧ 2 ≤ duration then
      let text := d buffer
      let trimmed := pyTailSlice keepBytes buffer
      if text ≠ "" then
        .ok ⟨⟨trimmed, now⟩, [.transcription text], some text, some buffer⟩
      else
        .ok ⟨⟨trimmed, now⟩, [], none, some buffer⟩
    else
      .ok ⟨⟨buffer, st.last_decode_time⟩, [], none, none⟩

/-- Runs the `handle` loop over a timed trace of inbound messages,
recording each iteration's output; the first uncaught exception aborts the
loop (closing the connection). -/
def handleRun (d : List Nat → String) (st : HandleState) :
    List (ℚ × String) → Except PyError (HandleState × List (ℚ × StepOut))
  | [] => .ok (st, [])
  | (t, m) :: rest =>
    match handleStep d st t m with
    | .error e => .error e
    | .ok r =>
      match handleRun d r.state rest with
      | .error e => .error e
      | .ok (fin, tr) => .ok (fin, (t, r) :: tr)

/-- The times at which the decode trigger fired along a trace. -/
def fireTimes (tr : List (ℚ × StepOut)) : List ℚ :=
  (tr.filter (fun p => p.2.window.isSome)).map Prod.fst

/-- The decoded PCM chunk an inbound message appends to the buffer, when it
is a well-formed audio message. -/
def audioChunk (m : String) : Option (List Nat) :=
  match msgAction m with
  | .ok (.audio pcm) => some pcm
  | _ => none

/-- Python `is None` filtering of a value pulled out of a parsed dict:
a JSON `null` became the Python `None`. -/
def toOpt (j : Json) : Option Json :=
  match j with
  | .null => none
  | v => some v

/-- The value-selection chain applied to a successfully parsed dict (both
at source lines 303-316 and, identically, 325-333): prefer `"context"`,
then `"command"`, then the single value of a one-key dict, else re-serialize
the whole dict. -/
def pyDictExtract (fs : List (String × Json)) : Option Json :=
  match dictGet fs "context" with
  | some v => toOpt v
  | none =>
    match dictGet fs "command" with
    | some v => toOpt v
    | none =>
      if fs.length = 1 then
        match fs with
        | (_, v) :: _ => toOpt v
        | [] => none
      else some (.str (Json.dump (.obj fs)))

/-- The non-empty stripped lines of a text,
`[ln.strip() for ln in text_str.splitlines() if ln.strip()]`. -/
def pyLines (s : String) : List String :=
  ((pySplitlines s).map String.trim).filter (fun l => l ≠ "")

/-- The `context_val` extraction from the (fence-stripped) response text
(source lines 299-346): strict `json.loads` of the whole text; only when
that raises, `json.loads` of the substring between the first `\x7b` and the
last `\x7d`; when `context_val` is still `None`, the best-line heuristic
over the text's non-empty stripped lines. -/
def extract_context (text_str : String) : Option Json :=
  let afterParse : Option Json :=
    match jsonLoads text_str with
    | some (.obj fs) => pyDictExtract fs
    | some _ => none
    | none =>
      match bracketCandidate text_str with
      | some cand =>
        match jsonLoads cand with
        | some (.obj fs) => pyDictExtract fs
        | _ => none
      | none => none
  match afterParse with
  | some v => some v
  | none => (bestLine (pyLines text_str)).map Json.str

/-- The final normalization of `context_val` (source lines 360-363):
`json.dumps` for a dict or list, `str(...).strip()` otherwise. -/
def normalizeCtx : Json → String
  | .obj fs => Json.dump (.obj fs)
  | .arr xs => Json.dump (.arr xs)
  | v => (pyStr v).trim

/-- The literal fallback string the source uses both for the
missing-credential fallback and for the extraction-failure signal. -/
def noContextLiteral : String := "No relevant context extracted"

/-- The opaque environment of one enrichment invocation: which of the
external failure/success modes the OpenAI SDK exhibits.  `response raw`
carries the response text as recovered by the duck-typed SDK probing of
source lines 244-291 (that probing only inspects the opaque SDK response
object, so its result is part of the environment). -/
inductive LLMEnv where
  | noClient
  | clientFail
  | callFail
  | response (raw : String)

/-- Everything one enrichment invocation produces: messages successfully
handed to the websocket, the Python return value, the tags of the
diagnostics printed to the server console, and the number of completed or
attempted OpenAI API calls. -/
structure EnrichOutcome where
  sent : List OutMsg
  retVal : Option String
  logTags : List String
  apiCalls : Nat
deriving DecidableEq

/-- Embedding of `send_transcripts_to_llm_and_print` (source lines
108-383) as invoked by this server: `transcripts` is the transcript string
(`handle` always passes a `str`, so the list branch of the input
normalization is not taken), `hasWebsocket` states whether a websocket was
supplied.  Websocket sends are modelled as succeeding (a failed send only
prints and is swallowed). -/
def send_transcripts_to_llm_and_print (env : LLMEnv) (transcripts : String)
    (hasWebsocket : Bool) : EnrichOutcome :=
  if transcripts = "" then ⟨[], none, ["no transcripts provided"], 0⟩
  else
    let combined := transcripts.trim
    if combined = "" then ⟨[], none, ["combined transcripts empty"], 0⟩
    else
      match env with
      | .noClient =>
        ⟨if hasWebsocket then [.contextMsg noContextLiteral] else [],
          some noContextLiteral, ["LLM FALLBACK CONTEXT"], 0⟩
      | .clientFail =>
        ⟨[], none, ["Failed to instantiate OpenAI client"], 0⟩
      | .callFail =>
        ⟨[], none, ["OpenAI API call failed"], 1⟩
      | .response raw =>
        let text_str := stripFences raw
        match extract_context text_str with
        | none =>
          ⟨if hasWebsocket then [.contextErrorMsg noContextLiteral] else [],
            none, ["failed to extract context"], 1⟩
        | some v =>
          let context_out := normalizeCtx v
          ⟨if hasWebsocket then [.contextMsg context_out] else [],
            some context_out, ["LLM CONTEXT"], 1⟩

set_option maxRecDepth 8000

/-- The overlap retained after a decode is 32000 bytes. -/
theorem keepBytes_eq : keepBytes = 32000 := by with_unfolding_all rfl

/-- A message classified as droppable makes `handle` fall through both
`continue`s: the state is untouched and nothing is sent or spawned. -/
theorem handleStep_of_ignore {m : String} (d : List Nat → String)
    (st : HandleState) (t : ℚ) (h : msgAction m = .ok .ignore) :
    handleStep d st t m = .ok ⟨st, [], none, none⟩ := by
  unfold handleStep; rw [h]

/-- A `CRASH_LOG` message with its fields only prints: the state is
untouched and nothing is sent or spawned. -/
theorem handleStep_of_crashLog {m : String} (d : List Nat → String)
    (st : HandleState) (t : ℚ) (h : msgAction m = .ok .crashLog) :
    handleStep d st t m = .ok ⟨st, [], none, none⟩ := by
  unfold handleStep; rw [h]

/-- An exception in the classification aborts the iteration. -/
theorem handleStep_of_error {m : String} {e : PyError} (d : List Nat → String)
    (st : HandleState) (t : ℚ) (h : msgAction m = .error e) :
    handleStep d st t m = .error e := by
  unfold handleStep; rw [h]

/-- A message that fails JSON parsing raises at `json.loads`. -/
theorem msgAction_of_loads_none {m : String} (h : jsonLoads m = none) :
    msgAction m = .error .jsonDecodeError := by
  unfold msgAction; rw [h]

/-- A JSON-object message whose `type` is a string other than `CRASH_LOG`
and `audio` is droppable. -/
theorem msgAction_of_other_type {m : String} {fs : List (String × Json)}
    {ty : String} (h1 : jsonLoads m = some (.obj fs))
    (h2 : dictGet fs "type" = some (.str ty))
    (h3 : ty ≠ "CRASH_LOG") (h4 : ty ≠ "audio") :
    msgAction m = .ok .ignore := by
  simp only [msgAction, h1, h2]
  simp [h3, h4]

/-- A JSON-object message with no `type` field (or a non-string one, which
this lemma does not cover) is droppable. -/
theorem msgAction_of_no_type {m : String} {fs : List (String × Json)}
    (h1 : jsonLoads m = some (.obj fs)) (h2 : dictGet fs "type" = none) :
    msgAction m = .ok .ignore := by
  simp only [msgAction, h1, h2]

/-- Unfolding of the audio branch of one `handle` iteration. -/
theorem handleStep_of_audio {m : String} {pcm : List Nat}
    (d : List Nat → String) (st : HandleState) (t : ℚ)
    (h : msgAction m = .ok (.audio pcm)) :
    handleStep d st t m =
      if DECODE_INTERVAL_SECONDS ≤ t - st.last_decode_time ∧
          2 ≤ (((st.buffer ++ pcm).length : ℚ) / ((bytesPerSecond : ℕ) : ℚ)) then
        if d (st.buffer ++ pcm) ≠ "" then
          .ok ⟨⟨pyTailSlice keepBytes (st.buffer ++ pcm), t⟩,
            [.transcription (d (st.buffer ++ pcm))],
            some (d (st.buffer ++ pcm)), some (st.buffer ++ pcm)⟩
        else
          .ok ⟨⟨pyTailSlice keepBytes (st.buffer ++ pcm), t⟩, [], none,
            some (st.buffer ++ pcm)⟩
      else
        .ok ⟨⟨st.buffer ++ pcm, st.last_decode_time⟩, [], none, none⟩ := by
  unfold handleStep; rw [h]

/-- Inversion of a fired iteration: the decode trigger fired exactly on an
audio message under the time-and-duration guard, the decoded window is the
appended buffer, and the whole outcome is determined by the decoded text. -/
theorem handleStep_fired {d : List Nat → String} {st : HandleState} {t : ℚ}
    {m : String} {r : StepOut} {w : List Nat}
    (hstep : handleStep d st t m = .ok r) (hw : r.window = some w) :
    ∃ pcm, msgAction m = .ok (.audio pcm) ∧ w = st.buffer ++ pcm ∧
      DECODE_INTERVAL_SECONDS ≤ t - st.last_decode_time ∧
      2 ≤ ((w.length : ℚ) / ((bytesPerSecond : ℕ) : ℚ)) ∧
      r = ⟨⟨pyTailSlice keepBytes w, t⟩,
        if d w ≠ "" then [.transcription (d w)] else [],
        if d w ≠ "" then some (d w) else none, some w⟩ := by
  cases hma : msgAction m with
  | error e =>
    rw [handleStep_of_error d st t hma] at hstep
    exact absurd hstep (by simp)
  | ok a =>
    cases a with
    | ignore =>
      rw [handleStep_of_ignore d st t hma] at hstep
      injection hstep with h2
      rw [← h2] at hw
      exact absurd hw (by simp)
    | crashLog =>
      rw [handleStep_of_crashLog d st t hma] at hstep
      injection hstep with h2
      rw [← h2] at hw
      exact absurd hw (by simp)
    | audio pcm =>
      rw [handleStep_of_audio d st t hma] at hstep
      refine ⟨pcm, rfl, ?_⟩
      by_cases hg : DECODE_INTERVAL_SECONDS ≤ t - st.last_decode_time ∧
          2 ≤ (((st.buffer ++ pcm).length : ℚ) / ((bytesPerSecond : ℕ) : ℚ))
      · rw [if_pos hg] at hstep
        by_cases ht : d (st.buffer ++ pcm) ≠ ""
        · rw [if_pos ht] at hstep
          injection hstep with h2
          rw [← h2] at hw
          simp only [Option.some.injEq] at hw
          subst hw
          refine ⟨rfl, hg.1, hg.2, ?_⟩
          rw [← h2]
          simp [ht]
        · rw [if_neg ht] at hstep
          injection hstep with h2
          rw [← h2] at hw
          simp only [Option.some.injEq] at hw
          subst hw
          refine ⟨rfl, hg.1, hg.2, ?_⟩
          rw [← h2]
          simp [ht]
      · rw [if_neg hg] at hstep
        injection hstep with h2
        rw [← h2] at hw
        exact absurd hw (by simp)

/-- Inversion of an un-fired iteration: nothing is sent or spawned and the
last-decode timestamp is unchanged. -/
theorem handleStep_not_fired {d : List Nat → String} {st : HandleState}
    {t : ℚ} {m : String} {r : StepOut}
    (hstep : handleStep d st t m = .ok r) (hw : r.window = none) :
    r.sent = [] ∧ r.spawned = none ∧
      r.state.last_decode_time = st.last_decode_time := by
  cases hma : msgAction m with
  | error e =>
    rw [handleStep_of_error d st t hma] at hstep
    exact absurd hstep (by simp)
  | ok a =>
    cases a with
    | ignore =>
      rw [handleStep_of_ignore d st t hma] at hstep
      injection hstep with h2
      rw [← h2]
      exact ⟨rfl, rfl, rfl⟩
    | crashLog =>
      rw [handleStep_of_crashLog d st t hma] at hstep
      injection hstep with h2
      rw [← h2]
      exact ⟨rfl, rfl, rfl⟩
    | audio pcm =>
      rw [handleStep_of_audio d st t hma] at hstep
      by_cases hg : DECODE_INTERVAL_SECONDS ≤ t - st.last_decode_time ∧
          2 ≤ (((st.buffer ++ pcm).length : ℚ) / ((bytesPerSecond : ℕ) : ℚ))
      · rw [if_pos hg] at hstep
        by_cases ht : d (st.buffer ++ pcm) ≠ ""
        · rw [if_pos ht] at hstep
          injection hstep with h2
          rw [← h2] at hw
          exact absurd hw (by simp)
        · rw [if_neg ht] at hstep
          injection hstep with h2
          rw [← h2] at hw
          exact absurd hw (by simp)
      · rw [if_neg hg] at hstep
        injection hstep with h2
        rw [← h2]
        exact ⟨rfl, rfl, rfl⟩

/-- Length of a Python tail slice. -/
theorem pyTailSlice_length (k : ℕ) (l : List Nat) :
    (pyTailSlice k l).length = if k ≤ l.length then k else l.length := by
  simp only [pyTailSlice, List.length_drop]
  split <;> omega

/-- A tail slice of a list with divisible length, by a divisible count,
has divisible length. -/
theorem dvd_pyTailSlice {a k : ℕ} (l : List Nat) (h1 : a ∣ l.length)
    (h2 : a ∣ k) : a ∣ (pyTailSlice k l).length := by
  rw [pyTailSlice_length]
  split
  · exact h2
  · exact h1

/-- A decoder that always hears the word `hello` (a stand-in for
`decode_pcm` returning non-empty text). -/
def decHello : List Nat → String := fun _ => "hello"

/-- A decoder that always hears silence (a stand-in for `decode_pcm`
returning the empty string). -/
def decEmpty : List Nat → String := fun _ => ""

/-- A JSON message with an unrecognized type tag. -/
def pingMsg : String := "\x7b\"type\": \"ping\"\x7d"

/-- The metadata message of the wire protocol, reporting a 44100 Hz rate. -/
def metaMsg : String := "\x7b\"type\": \"metadata\", \"sampleRate\": 44100\x7d"

/-- An audio message whose payload decodes to the three bytes `[0,0,0]`. -/
def audioMsgA : String := "\x7b\"type\": \"audio\", \"data\": \"AAAA\"\x7d"

/-- An audio message whose payload decodes to the single byte `[0]`. -/
def audioOdd : String := "\x7b\"type\": \"audio\", \"data\": \"AA==\"\x7d"

/-- An audio message whose payload decodes to the two bytes `[0,0]`. -/
def audioEven : String := "\x7b\"type\": \"audio\", \"data\": \"AAA=\"\x7d"

/-- A connection state holding two seconds of buffered zeros, with the
last decode at time 0. -/
def st64 : HandleState := ⟨List.replicate 64000 0, 0⟩

/-- The decode window produced by appending `audioMsgA` to `st64`. -/
def winA : List Nat := st64.buffer ++ [0, 0, 0]

/-- The outcome of a fired decode on `st64` hearing `hello` at time 6. -/
def outA : StepOut :=
  ⟨⟨pyTailSlice keepBytes winA, 6⟩, [.transcription "hello"], some "hello",
    some winA⟩

/-- The outcome of a fired decode on `st64` hearing silence at time 6. -/
def outB : StepOut :=
  ⟨⟨pyTailSlice keepBytes winA, 6⟩, [], none, some winA⟩

/-- Classification of the concrete audio message. -/
theorem msgActionA : msgAction audioMsgA = .ok (.audio [0, 0, 0]) := by
  with_unfolding_all rfl

/-- At time 6 with two seconds buffered, the decode guard holds. -/
theorem guardA : DECODE_INTERVAL_SECONDS ≤ (6 : ℚ) - st64.last_decode_time ∧
    2 ≤ (((st64.buffer ++ [0, 0, 0]).length : ℚ) / ((bytesPerSecond : ℕ) : ℚ)) := by
  constructor
  · show DECODE_INTERVAL_SECONDS ≤ (6 : ℚ) - (0 : ℚ)
    norm_num [DECODE_INTERVAL_SECONDS]
  · simp only [st64, List.length_append, List.length_replicate, bytesPerSecond,
      SAMPLE_RATE, SAMPLE_WIDTH]
    norm_num

/-- The concrete fired decode with non-empty text. -/
theorem stepA : handleStep decHello st64 6 audioMsgA = .ok outA := by
  rw [handleStep_of_audio decHello st64 6 msgActionA, if_pos guardA,
    if_pos (by decide : decHello (st64.buffer ++ [0, 0, 0]) ≠ "")]
  rfl

/-- The concrete fired decode with empty text. -/
theorem stepB : handleStep decEmpty st64 6 audioMsgA = .ok outB := by
  rw [handleStep_of_audio decEmpty st64 6 msgActionA, if_pos guardA,
    if_neg (by decide : ¬ decEmpty (st64.buffer ++ [0, 0, 0]) ≠ "")]
  rfl

/-- Unfolding of `handleRun` over one successful iteration. -/
theorem handleRun_cons_ok {d : List Nat → String} {st : HandleState}
    {t : ℚ} {m : String} {r : StepOut} {rest : List (ℚ × String)}
    {fin : HandleState} {tr : List (ℚ × StepOut)}
    (h1 : handleStep d st t m = .ok r)
    (h2 : handleRun d r.state rest = .ok (fin, tr)) :
    handleRun d st ((t, m) :: rest) = .ok (fin, (t, r) :: tr) := by
  unfold handleRun
  simp only [h1, h2]

/-- The concrete one-message run containing one fired decode. -/
theorem runA : handleRun decHello st64 [(6, audioMsgA)] =
    .ok (outA.state, [(6, outA)]) :=
  handleRun_cons_ok stepA rfl

/-- C1 (amended): a message that parses to a JSON object with an
unrecognized (or missing) `type` is dropped silently — the state is
unchanged, nothing is sent — and the loop continues; but a message that is
not valid JSON raises `json.JSONDecodeError`, and an uncaught exception in
an iteration aborts the whole receive loop, terminating the connection. -/
theorem C1_amended :
    (∀ (d : List Nat → String) (st : HandleState) (t : ℚ) (m : String)
        (fs : List (String × Json)) (ty : String),
        jsonLoads m = some (.obj fs) → dictGet fs "type" = some (.str ty) →
        ty ≠ "CRASH_LOG" → ty ≠ "audio" →
        handleStep d st t m = .ok ⟨st, [], none, none⟩)
    ∧ (∀ (d : List Nat → String) (st : HandleState) (t : ℚ) (m : String)
        (fs : List (String × Json)),
        jsonLoads m = some (.obj fs) → dictGet fs "type" = none →
        handleStep d st t m = .ok ⟨st, [], none, none⟩)
    ∧ (∀ (d : List Nat → String) (st : HandleState) (t : ℚ) (m : String),
        jsonLoads m = none → handleStep d st t m = .error .jsonDecodeError)
    ∧ (∀ (d : List Nat → String) (st : HandleState) (t : ℚ) (m : String)
        (evs : List (ℚ × String)) (e : PyError),
        handleStep d st t m = .error e →
        handleRun d st ((t, m) :: evs) = .error e) := by
  refine ⟨?_, ?_, ?_, ?_⟩
  · intro d st t m fs ty h1 h2 h3 h4
    exact handleStep_of_ignore d st t (msgAction_of_other_type h1 h2 h3 h4)
  · intro d st t m fs h1 h2
    exact handleStep_of_ignore d st t (msgAction_of_no_type h1 h2)
  · intro d st t m h
    exact handleStep_of_error d st t (msgAction_of_loads_none h)
  · intro d st t m evs e h
    unfold handleRun
    rw [h]

/-- C1 (counterexample): the very first inbound message being malformed
JSON terminates the whole receive loop with `json.JSONDecodeError` — the
well-formed audio message behind it is never processed. -/
theorem C1_counterexample :
    handleRun decHello ⟨[], 0⟩ [(0, "oops"), (1, audioMsgA)] =
      .error .jsonDecodeError := by
  with_unfolding_all rfl

/-- C1 (witness): the amended claim evaluated at a concrete unrecognized
message and a concrete malformed message. -/
theorem C1_witness :
    handleStep decHello ⟨[], 0⟩ 0 pingMsg = .ok ⟨⟨[], 0⟩, [], none, none⟩
    ∧ handleStep decHello ⟨[], 0⟩ 0 "oops" = .error .jsonDecodeError :=
  ⟨C1_amended.1 decHello ⟨[], 0⟩ 0 pingMsg [("type", .str "ping")] "ping"
      (by with_unfolding_all rfl) (by with_unfolding_all rfl)
      (by decide) (by decide),
    C1_amended.2.2.1 decHello ⟨[], 0⟩ 0 "oops" (by with_unfolding_all rfl)⟩

/-- C2 (amended): a `metadata` message is silently ignored exactly like any
other unrecognized type — the connection state (the entirety of the
per-connection mutable state of `handle`) is unchanged and nothing is sent
or spawned; no sample rate is recorded anywhere, and the decode path always
assumes the fixed 16000 Hz target rate. -/
theorem C2_amended :
    ∀ (d : List Nat → String) (st : HandleState) (t : ℚ) (m : String)
      (fs : List (String × Json)),
      jsonLoads m = some (.obj fs) →
      dictGet fs "type" = some (.str "metadata") →
      handleStep d st t m = .ok ⟨st, [], none, none⟩ :=
  fun d st t m fs h1 h2 =>
    handleStep_of_ignore d st t
      (msgAction_of_other_type h1 h2 (by decide) (by decide))

/-- C2 (counterexample): a metadata message reporting 44100 Hz leaves the
complete per-connection state unchanged, and the handler's response to it
is identical to its response to a meaningless `ping` type — nothing records
the reported sample rate. -/
theorem C2_counterexample :
    handleStep decHello ⟨[], 0⟩ 100 metaMsg = .ok ⟨⟨[], 0⟩, [], none, none⟩
    ∧ handleStep decHello ⟨[], 0⟩ 100 metaMsg =
        handleStep decHello ⟨[], 0⟩ 100 pingMsg := by
  constructor <;> with_unfolding_all rfl

/-- C2 (witness): the amended claim evaluated at the concrete metadata
message. -/
theorem C2_witness :
    handleStep decHello ⟨[], 0⟩ 100 metaMsg = .ok ⟨⟨[], 0⟩, [], none, none⟩ :=
  C2_amended decHello ⟨[], 0⟩ 100 metaMsg
    [("type", .str "metadata"), ("sampleRate", .num 44100)]
    (by with_unfolding_all rfl) (by with_unfolding_all rfl)

/-- C9 (amended): provided every decoded audio payload has a length
divisible by the sample width, each iteration preserves divisibility of the
buffer length by the sample width, both for the end-of-iteration buffer
(append, or append followed by the post-decode trim, whose 32000-byte
retention count is itself divisible) and for the appended decode window. -/
theorem C9_amended :
    ∀ (d : List Nat → String) (st : HandleState) (t : ℚ) (m : String)
      (r : StepOut),
      handleStep d st t m = .ok r →
      SAMPLE_WIDTH ∣ st.buffer.length →
      (∀ pcm, audioChunk m = some pcm → SAMPLE_WIDTH ∣ pcm.length) →
      SAMPLE_WIDTH ∣ r.state.buffer.length ∧
        (∀ w, r.window = some w → SAMPLE_WIDTH ∣ w.length) := by
  intro d st t m r hstep hbuf hchunk
  cases hma : msgAction m with
  | error e =>
    rw [handleStep_of_error d st t hma] at hstep
    exact absurd hstep (by simp)
  | ok a =>
    cases a with
    | ignore =>
      rw [handleStep_of_ignore d st t hma] at hstep
      injection hstep with h2
      rw [← h2]
      exact ⟨hbuf, by simp⟩
    | crashLog =>
      rw [handleStep_of_crashLog d st t hma] at hstep
      injection hstep with h2
      rw [← h2]
      exact ⟨hbuf, by simp⟩
    | audio pcm =>
      have hpcm : SAMPLE_WIDTH ∣ pcm.length := by
        apply hchunk
        unfold audioChunk
        rw [hma]
      have happ : SAMPLE_WIDTH ∣ (st.buffer ++ pcm).length := by
        rw [List.length_append]
        exact Nat.dvd_add hbuf hpcm
      have hkeep : SAMPLE_WIDTH ∣ keepBytes := by
        rw [keepBytes_eq]
        decide
      rw [handleStep_of_audio d st t hma] at hstep
      by_cases hg : DECODE_INTERVAL_SECONDS ≤ t - st.last_decode_time ∧
          2 ≤ (((st.buffer ++ pcm).length : ℚ) / ((bytesPerSecond : ℕ) : ℚ))
      · rw [if_pos hg] at hstep
        by_cases ht : d (st.buffer ++ pcm) ≠ ""
        · rw [if_pos ht] at hstep
          injection hstep with h2
          rw [← h2]
          refine ⟨dvd_pyTailSlice _ happ hkeep, ?_⟩
          intro w hw
          simp only [Option.some.injEq] at hw
          rw [← hw]
          exact happ
        · rw [if_neg ht] at hstep
          injection hstep with h2
          rw [← h2]
          refine ⟨dvd_pyTailSlice _ happ hkeep, ?_⟩
          intro w hw
          simp only [Option.some.injEq] at hw
          rw [← hw]
          exact happ
      · rw [if_neg hg] at hstep
        injection hstep with h2
        rw [← h2]
        exact ⟨happ, by simp⟩

/-- C9 (counterexample): a single audio message whose base64 payload
decodes to one byte makes the buffer length 1, which is not a multiple of
the sample width 2 — the handler never checks chunk parity. -/
theorem C9_counterexample :
    handleStep decHello ⟨[], 0⟩ 0 audioOdd = .ok ⟨⟨[0], 0⟩, [], none, none⟩
    ∧ ¬ (SAMPLE_WIDTH ∣ ([0] : List Nat).length) :=
  ⟨by with_unfolding_all rfl, by decide⟩

/-- C9 (witness): the amended claim evaluated at a concrete even-length
chunk appended to an empty buffer. -/
theorem C9_witness : SAMPLE_WIDTH ∣ ([0, 0] : List Nat).length :=
  (C9_amended decHello ⟨[], 0⟩ 0 audioEven ⟨⟨[0, 0], 0⟩, [], none, none⟩
    (by with_unfolding_all rfl) (by decide)
    (fun pcm h => by
      have h2 : audioChunk audioEven = some [0, 0] := by with_unfolding_all rfl
      rw [h2] at h
      injection h with h3
      rw [← h3]
      decide)).1

/-- C3: when the decode trigger fires, the retained buffer is exactly the
tail slice of `keepBytes = int(OVERLAP_SECONDS * SAMPLE_RATE *
SAMPLE_WIDTH)` bytes of the decoded window: its length is exactly
`keepBytes` whenever the window was at least that long, and it is the whole
window otherwise. -/
theorem C3_thm :
    ∀ (d : List Nat → String) (st : HandleState) (t : ℚ) (m : String)
      (r : StepOut) (w : List Nat),
      handleStep d st t m = .ok r → r.window = some w →
      r.state.buffer = pyTailSlice keepBytes w ∧
      (keepBytes ≤ w.length → r.state.buffer.length = keepBytes) ∧
      (w.length < keepBytes → r.state.buffer = w) := by
  intro d st t m r w hstep hw
  obtain ⟨pcm, hma, hwdef, hg1, hg2, hr⟩ := handleStep_fired hstep hw
  subst hr
  refine ⟨rfl, ?_, ?_⟩
  · intro hk
    show (pyTailSlice keepBytes w).length = keepBytes
    rw [pyTailSlice_length, if_pos hk]
  · intro hk
    show pyTailSlice keepBytes w = w
    unfold pyTailSlice
    rw [Nat.sub_eq_zero_of_le (Nat.le_of_lt hk), List.drop_zero]

/-- C3 (witness): the claim evaluated at the concrete fired decode, whose
64003-byte window is trimmed to exactly 32000 bytes. -/
theorem C3_witness :
    keepBytes ≤ winA.length ∧ outA.state.buffer.length = keepBytes := by
  have hk : keepBytes ≤ winA.length := by
    rw [keepBytes_eq]
    simp only [winA, st64, List.length_append, List.length_replicate]
    norm_num
  exact ⟨hk, (C3_thm decHello st64 6 audioMsgA outA winA stepA rfl).2.1 hk⟩

/-- C5: on a fired decode, the transcription message is sent and the
enrichment task is spawned with the decoded text precisely when that text
is non-empty; on empty text nothing is sent and nothing is spawned. -/
theorem C5_thm :
    ∀ (d : List Nat → String) (st : HandleState) (t : ℚ) (m : String)
      (r : StepOut) (w : List Nat),
      handleStep d st t m = .ok r → r.window = some w →
      (d w ≠ "" → r.sent = [.transcription (d w)] ∧ r.spawned = some (d w)) ∧
      (d w = "" → r.sent = [] ∧ r.spawned = none) := by
  intro d st t m r w hstep hw
  obtain ⟨pcm, hma, hwdef, hg1, hg2, hr⟩ := handleStep_fired hstep hw
  subst hr
  constructor
  · intro ht
    constructor <;> simp [ht]
  · intro ht
    constructor <;> simp [ht]

/-- C5 (witness): the claim evaluated at the concrete fired decode with
non-empty text, which sends the transcription and spawns enrichment. -/
theorem C5_witness :
    decHello winA ≠ "" ∧ outA.sent = [.transcription (decHello winA)] ∧
      outA.spawned = some (decHello winA) := by
  have h := (C5_thm decHello st64 6 audioMsgA outA winA stepA rfl).1 (by decide)
  exact ⟨by decide, h.1, h.2⟩

/-- C10: even when the decoded text is empty, a fired decode still trims
the buffer to the overlap tail slice and still advances the last-decode
timestamp to the current time, while sending and spawning nothing — the
audio beyond the overlap is consumed silently. -/
theorem C10_thm :
    ∀ (d : List Nat → String) (st : HandleState) (t : ℚ) (m : String)
      (r : StepOut) (w : List Nat),
      handleStep d st t m = .ok r → r.window = some w → d w = "" →
      r.state.buffer = pyTailSlice keepBytes w ∧
      r.state.last_decode_time = t ∧ r.sent = [] ∧ r.spawned = none := by
  intro d st t m r w hstep hw ht
  obtain ⟨pcm, hma, hwdef, hg1, hg2, hr⟩ := handleStep_fired hstep hw
  subst hr
  refine ⟨rfl, rfl, ?_, ?_⟩ <;> simp [ht]

/-- C10 (witness): the claim evaluated at the concrete fired decode with
empty text: trimmed buffer, advanced timestamp, nothing emitted. -/
theorem C10_witness :
    outB.state.buffer = pyTailSlice keepBytes winA ∧
      outB.state.last_decode_time = 6 ∧ outB.sent = [] ∧ outB.spawned = none :=
  C10_thm decEmpty st64 6 audioMsgA outB winA stepB rfl (by decide)

/-- A step that did not fire contributes no fire time. -/
theorem fireTimes_cons_none {r : StepOut} (t : ℚ) (tr : List (ℚ × StepOut))
    (h : r.window = none) : fireTimes ((t, r) :: tr) = fireTimes tr := by
  simp [fireTimes, List.filter_cons, h]

/-- A fired step contributes its time to the fire times. -/
theorem fireTimes_cons_some {r : StepOut} {w : List Nat} (t : ℚ)
    (tr : List (ℚ × StepOut)) (h : r.window = some w) :
    fireTimes ((t, r) :: tr) = t :: fireTimes tr := by
  simp [fireTimes, List.filter_cons, h]

/-- Inversion of a run over a non-empty trace. -/
theorem handleRun_cons_inv {d : List Nat → String} {st : HandleState}
    {t : ℚ} {m : String} {rest : List (ℚ × String)} {fin : HandleState}
    {tr : List (ℚ × StepOut)}
    (h : handleRun d st ((t, m) :: rest) = .ok (fin, tr)) :
    ∃ r tr2, handleStep d st t m = .ok r ∧
      handleRun d r.state rest = .ok (fin, tr2) ∧ tr = (t, r) :: tr2 := by
  unfold handleRun at h
  cases hs : handleStep d st t m with
  | error e =>
    simp only [hs] at h
    exact Except.noConfusion h
  | ok r =>
    simp only [hs] at h
    cases hr : handleRun d r.state rest with
    | error e =>
      simp only [hr] at h
      exact Except.noConfusion h
    | ok p =>
      obtain ⟨fin2, tr2⟩ := p
      simp only [hr] at h
      injection h with h2
      injection h2 with h3 h4
      subst h3
      exact ⟨r, tr2, rfl, hr, h4.symm⟩

/-- The run-level scheduling invariant: along any successful run, the
decode fire times form a chain in which each fire (the first included,
counting from the initial `last_decode_time`) is at least
`DECODE_INTERVAL_SECONDS` after its predecessor; the final
`last_decode_time` is the last fire time (or the initial one if none); and
every decoded window carried at least 2 seconds of audio. -/
theorem handleRun_fire_invariant (d : List Nat → String) :
    ∀ (evs : List (ℚ × String)) (st fin : HandleState)
      (tr : List (ℚ × StepOut)),
      handleRun d st evs = .ok (fin, tr) →
      List.Chain (fun a b : ℚ => a + DECODE_INTERVAL_SECONDS ≤ b)
        st.last_decode_time (fireTimes tr) ∧
      fin.last_decode_time = (fireTimes tr).getLastD st.last_decode_time ∧
      (∀ p ∈ tr, ∀ w, p.2.window = some w →
        (2 : ℚ) ≤ ((w.length : ℚ) / ((bytesPerSecond : ℕ) : ℚ))) := by
  intro evs
  induction evs with
  | nil =>
    intro st fin tr h
    unfold handleRun at h
    injection h with h2
    injection h2 with h3 h4
    subst h3
    rw [← h4]
    exact ⟨List.Chain.nil, rfl, by simp⟩
  | cons ev rest ih =>
    obtain ⟨t, m⟩ := ev
    intro st fin tr h
    obtain ⟨r, tr2, hstep, hrun, rfl⟩ := handleRun_cons_inv h
    cases hwo : r.window with
    | none =>
      have hnf := handleStep_not_fired hstep hwo
      have ih2 := ih r.state fin tr2 hrun
      rw [hnf.2.2] at ih2
      rw [fireTimes_cons_none t tr2 hwo]
      refine ⟨ih2.1, ih2.2.1, ?_⟩
      intro p hp w hw
      rcases List.mem_cons.mp hp with hp1 | hp2
      · rw [hp1] at hw
        rw [hwo] at hw
        exact absurd hw (by simp)
      · exact ih2.2.2 p hp2 w hw
    | some w =>
      obtain ⟨pcm, hma, hwdef, hg1, hg2, hr⟩ := handleStep_fired hstep hwo
      have hlast : r.state.last_decode_time = t := by rw [hr]
      have ih2 := ih r.state fin tr2 hrun
      rw [hlast] at ih2
      rw [fireTimes_cons_some t tr2 hwo]
      refine ⟨List.Chain.cons (by linarith [hg1]) ih2.1, ?_, ?_⟩
      · rw [List.getLastD_cons]
        exact ih2.2.1
      · intro p hp w2 hw2
        rcases List.mem_cons.mp hp with hp1 | hp2
        · rw [hp1] at hw2
          rw [hwo] at hw2
          injection hw2 with h5
          rw [← h5]
          exact hg2
        · exact ih2.2.2 p hp2 w2 hw2

/-- C4: along any successful run of the receive loop, a decode fires only
when at least `DECODE_INTERVAL_SECONDS` have elapsed since the previous
decode (the connection-start timestamp included) — so consecutive fire
times are at least the interval apart, i.e. at most one decode per
interval — and only when the decoded window holds at least 2 seconds of
buffered audio. -/
theorem C4_thm :
    ∀ (d : List Nat → String) (st fin : HandleState)
      (evs : List (ℚ × String)) (tr : List (ℚ × StepOut)),
      handleRun d st evs = .ok (fin, tr) →
      List.Chain (fun a b : ℚ => a + DECODE_INTERVAL_SECONDS ≤ b)
        st.last_decode_time (fireTimes tr) ∧
      (∀ p ∈ tr, ∀ w, p.2.window = some w →
        (2 : ℚ) ≤ ((w.length : ℚ) / ((bytesPerSecond : ℕ) : ℚ))) :=
  fun d st fin evs tr h =>
    ⟨(handleRun_fire_invariant d evs st fin tr h).1,
      (handleRun_fire_invariant d evs st fin tr h).2.2⟩

/-- C4 (witness): the claim evaluated at the concrete one-decode run. -/
theorem C4_witness :
    List.Chain (fun a b : ℚ => a + DECODE_INTERVAL_SECONDS ≤ b)
      st64.last_decode_time (fireTimes [(6, outA)]) ∧
    (∀ p ∈ [((6 : ℚ), outA)], ∀ w, p.2.window = some w →
      (2 : ℚ) ≤ ((w.length : ℚ) / ((bytesPerSecond : ℕ) : ℚ))) :=
  C4_thm decHello st64 outA.state [(6, audioMsgA)] [(6, outA)] runA

/-- A response text that is exactly one JSON object with an empty
`context`. -/
def ctxEmpty : String := "\x7b\"context\": \"\"\x7d"

/-- A response text that is exactly one JSON object with context `hi`. -/
def ctxHi : String := "\x7b\"context\": \"hi\"\x7d"

/-- C6 (amended): one enrichment invocation hands the websocket at most one
message, and it is either a `context_partial` carrying some extracted
context string (possibly empty or re-serialized JSON), or a
`context_partial_error` carrying the literal fallback, or nothing at
all. -/
theorem C6_amended :
    ∀ (env : LLMEnv) (t : String) (ws : Bool),
      (send_transcripts_to_llm_and_print env t ws).sent = [] ∨
      (∃ c, (send_transcripts_to_llm_and_print env t ws).sent =
        [.contextMsg c]) ∨
      (send_transcripts_to_llm_and_print env t ws).sent =
        [.contextErrorMsg noContextLiteral] := by
  intro env t ws
  unfold send_transcripts_to_llm_and_print
  by_cases h1 : t = ""
  · rw [if_pos h1]
    left; rfl
  · rw [if_neg h1]
    by_cases h2 : t.trim = ""
    · rw [if_pos h2]
      left; rfl
    · rw [if_neg h2]
      cases env with
      | noClient =>
        cases ws with
        | false => left; rfl
        | true => right; left; exact ⟨noContextLiteral, rfl⟩
      | clientFail => left; rfl
      | callFail => left; rfl
      | response raw =>
        cases hx : extract_context (stripFences raw) with
        | none =>
          cases ws with
          | false => left; simp [hx]
          | true => right; right; simp [hx]
        | some v =>
          cases ws with
          | false => left; simp [hx]
          | true => right; left; exact ⟨normalizeCtx v, by simp [hx]⟩

/-- C6 (counterexample): an LLM response that is the JSON object with an
empty `context` value reaches the client as a `context_partial` whose
context is the empty string — neither a non-empty string nor any fallback
literal. -/
theorem C6_counterexample :
    (send_transcripts_to_llm_and_print (.response ctxEmpty) "hi" true).sent =
      [.contextMsg ""] ∧
    ("" : String) ≠ noContextLiteral ∧
    ("" : String) ≠ "no relevant context" :=
  ⟨by with_unfolding_all rfl, by decide, by decide⟩

/-- C7 (amended): with the credential absent the enrichment call runs its
local fallback to completion (no exception escapes): it makes no API call
(hence no retry), prints the fallback diagnostics, and sends the client a
`context_partial` carrying the literal `No relevant context extracted`. -/
theorem C7_amended :
    ∀ (t : String) (ws : Bool), t ≠ "" → t.trim ≠ "" →
      send_transcripts_to_llm_and_print .noClient t ws =
        ⟨if ws then [.contextMsg noContextLiteral] else [],
          some noContextLiteral, ["LLM FALLBACK CONTEXT"], 0⟩ := by
  intro t ws h1 h2
  unfold send_transcripts_to_llm_and_print
  rw [if_neg h1, if_neg h2]

/-- C7 (counterexample): with the credential absent, a message is sent to
the client for that cycle (the fallback `context_partial`), although no
API call was made. -/
theorem C7_counterexample :
    (send_transcripts_to_llm_and_print .noClient "hello there" true).sent =
      [.contextMsg noContextLiteral] ∧
    (send_transcripts_to_llm_and_print .noClient "hello there" true).apiCalls
      = 0 := by
  constructor <;> with_unfolding_all rfl

/-- C7 (witness): the amended claim evaluated at a concrete transcript. -/
theorem C7_witness :
    send_transcripts_to_llm_and_print .noClient "hello" true =
      ⟨[.contextMsg noContextLiteral], some noContextLiteral,
        ["LLM FALLBACK CONTEXT"], 0⟩ := by
  rw [C7_amended "hello" true (by decide) (by with_unfolding_all decide)]
  rfl

/-- C8 (amended): the extraction tries the stages in the claimed order —
strict parse of the whole (fence-stripped) text; only if that parse raises,
the bracket-scan substring; best-line only when no `context_val` was
produced (including a strict parse that succeeded as a non-dict, which
skips the bracket scan) — but on total failure the client is sent an
explicit `context_partial_error` rather than nothing. -/
theorem C8_amended :
    (∀ (text : String) (fs : List (String × Json)) (v : Json),
        jsonLoads text = some (.obj fs) → pyDictExtract fs = some v →
        extract_context text = some v)
    ∧ (∀ (text : String) (fs : List (String × Json)),
        jsonLoads text = some (.obj fs) → pyDictExtract fs = none →
        extract_context text = (bestLine (pyLines text)).map Json.str)
    ∧ (∀ (text : String) (j : Json),
        jsonLoads text = some j → (∀ fs, j ≠ .obj fs) →
        extract_context text = (bestLine (pyLines text)).map Json.str)
    ∧ (∀ (text cand : String) (fs : List (String × Json)) (v : Json),
        jsonLoads text = none → bracketCandidate text = some cand →
        jsonLoads cand = some (.obj fs) → pyDictExtract fs = some v →
        extract_context text = some v)
    ∧ (∀ (text : String),
        jsonLoads text = none → bracketCandidate text = none →
        extract_context text = (bestLine (pyLines text)).map Json.str)
    ∧ (∀ (raw tr : String) (ws : Bool), tr ≠ "" → tr.trim ≠ "" →
        extract_context (stripFences raw) = none →
        (send_transcripts_to_llm_and_print (.response raw) tr ws).sent =
          if ws then [.contextErrorMsg noContextLiteral] else []) := by
  refine ⟨?_, ?_, ?_, ?_, ?_, ?_⟩
  · intro text fs v h1 h2
    simp [extract_context, h1, h2]
  · intro text fs h1 h2
    simp [extract_context, h1, h2]
  · intro text j h1 hne
    cases j with
    | obj fs => exact absurd rfl (hne fs)
    | null => simp [extract_context, h1]
    | bool b => simp [extract_context, h1]
    | num n => simp [extract_context, h1]
    | str s => simp [extract_context, h1]
    | arr xs => simp [extract_context, h1]
  · intro text cand fs v h1 h2 h3 h4
    simp [extract_context, h1, h2, h3, h4]
  · intro text h1 h2
    simp [extract_context, h1, h2]
  · intro raw tr ws h1 h2 hext
    simp only [send_transcripts_to_llm_and_print, hext]
    simp [h1, h2]

/-- C8 (counterexample): on the empty response text all three extraction
stages fail, yet the client is sent a `context_partial_error` message —
not nothing. -/
theorem C8_counterexample :
    extract_context "" = none ∧
    (send_transcripts_to_llm_and_print (.response "") "hi" true).sent =
      [.contextErrorMsg noContextLiteral] :=
  ⟨by with_unfolding_all rfl, by with_unfolding_all rfl⟩

/-- C8 (witness): the amended claim's strict-parse stage evaluated at a
concrete one-field JSON response. -/
theorem C8_witness : extract_context ctxHi = some (.str "hi") :=
  C8_amended.1 ctxHi [("context", Json.str "hi")] (Json.str "hi")
    (by with_unfolding_all rfl) (by with_unfolding_all rfl)
